import Mathlib

/-!
Verification development for the round-based agreement framework
(open-autonomy source sample).  The definitions below are a shallow
embedding of the code in
`src/packages/valory/skills/abstract_round_abci/background_round.py` and
`src/packages/valory/skills/common_apps/behaviours.py`.  Framework base
classes that the sample only imports (`BaseSynchronizedData`,
`CollectSameUntilThresholdRound`, helper tools) are modelled from the
specification, as marked in their doc comments.
-/

/-! ## Synchronized data store -/

/-- Values stored in the synchronized data mapping (the sample only ever
stores strings and booleans). -/
inductive Value
  | str (s : String)
  | bool (b : Bool)
deriving DecidableEq, Repr

/-- Modelled from the spec: `BaseSynchronizedData` (abstract_round_abci
base module, absent from src) — an immutable-per-version key/value
snapshot: `version` is a monotonic counter and `db` maps string keys to
values.  The mapping is represented as an association list in which
earlier entries shadow later ones. -/
structure SynchronizedData where
  version : Nat
  db : List (String × Value)
deriving DecidableEq, Repr

/-- Modelled from the spec: lookup with default, `get(key, default)`. -/
def SynchronizedData.get (s : SynchronizedData) (k : String) (d : Value) : Value :=
  match s.db.lookup k with
  | some v => v
  | none => d

/-- Modelled from the spec: `update` returns a new snapshot whose `db` is
the receiver's mapping overlaid with the deltas, and whose version is
incremented; it never mutates the receiver. -/
def SynchronizedData.update (s : SynchronizedData) (deltas : List (String × Value)) :
    SynchronizedData :=
  { version := s.version + 1, db := deltas ++ s.db }

/-- Accessor from `SynchronizedData.termination_majority_reached` in
background_round.py: `db.get("termination_majority_reached", False)`. -/
def SynchronizedData.termination_majority_reached (s : SynchronizedData) : Value :=
  s.get "termination_majority_reached" (Value.bool false)

/-- Accessor for the most voted transaction hash key written by the
termination round. -/
def SynchronizedData.most_voted_tx_hash (s : SynchronizedData) : Value :=
  s.get "most_voted_tx_hash" (Value.str "")

/-! ## Threshold round -/

/-- Modelled from the spec: the collection state of a
`CollectSameUntilThresholdRound` (absent from src).  `collection` is the
sender-to-fingerprint mapping (association list in submission order,
one entry per sender), `participants` the known participant set,
`concluded` the `COLLECTING -> CONCLUDED` flag. -/
structure ThresholdRound where
  participants : List String
  consensus_threshold : Nat
  collection : List (String × String)
  concluded : Bool
deriving DecidableEq, Repr

/-- Fingerprints in first-seen order (first occurrence kept). -/
def seenFingerprints : List (String × String) → List String
  | [] => []
  | kv :: rest => kv.2 :: (seenFingerprints rest).filter (fun f => f ≠ kv.2)

/-- Number of collected payloads carrying fingerprint `f`. -/
def countFp (c : List (String × String)) (f : String) : Nat :=
  (c.map Prod.snd).count f

/-- The set of senders that proposed fingerprint `f`. -/
def sendersFor (c : List (String × String)) (f : String) : List String :=
  (c.filter (fun kv => kv.2 = f)).map Prod.fst

/-- Modelled from the spec: `threshold_reached` — true when some
fingerprint's sender set has size at least `consensus_threshold`. -/
def ThresholdRound.threshold_reached (r : ThresholdRound) : Bool :=
  (seenFingerprints r.collection).any (fun f => r.consensus_threshold ≤ countFp r.collection f)

/-- Modelled from the spec: the fingerprint with the largest sender set,
ties resolved by first-seen fingerprint order. -/
def ThresholdRound.most_voted_payload (r : ThresholdRound) : Option String :=
  (seenFingerprints r.collection).argmax (countFp r.collection)

/-- Errors raised on payload submission. -/
inductive SubmitError
  | stale
  | unauthorized
deriving DecidableEq, Repr

/-- Replace the entry for sender `s` in place, or append a new one. -/
def upsert : List (String × String) → String → String → List (String × String)
  | [], s, p => [(s, p)]
  | kv :: rest, s, p =>
      if kv.1 = s then (s, p) :: rest else kv :: upsert rest s p

/-- Modelled from the spec: payload deposit into a round — a submission
after the round has concluded is rejected as stale, a sender outside the
participant set is rejected as unauthorized, and a resubmission before
the round ends replaces the prior payload of that sender. -/
def submitPayload (r : ThresholdRound) (sender p : String) :
    Except SubmitError ThresholdRound :=
  if r.concluded then Except.error SubmitError.stale
  else if sender ∈ r.participants then
    Except.ok { r with collection := upsert r.collection sender p }
  else Except.error SubmitError.unauthorized

/-! ## Termination (background) round -/

/-- Event emitted by the background round (background_round.py). -/
inductive Event
  | TERMINATE
deriving DecidableEq, Repr

/-- Embedding of `TerminationRound.end_block` (background_round.py lines
213-223): if the threshold is reached, update the synchronized data with
`termination_majority_reached = True` and
`most_voted_tx_hash = most_voted_payload` and emit TERMINATE; otherwise
return no decision. -/
def TerminationRound.end_block (r : ThresholdRound) (s : SynchronizedData) :
    Option (SynchronizedData × Event) :=
  if r.threshold_reached then
    match r.most_voted_payload with
    | some p =>
        some (s.update [("termination_majority_reached", Value.bool true),
                        ("most_voted_tx_hash", Value.str p)], Event.TERMINATE)
    | none => none
  else none

/-- Event emitted by a foreground round on success. -/
inductive FgEvent
  | DONE
deriving DecidableEq, Repr

/-- Modelled from the spec: a foreground threshold round's `end_block`
with a round-specific update function `upd` applied to the most voted
payload (e.g. record selected keeper, record majority randomness). -/
def ForegroundRound.end_block (r : ThresholdRound) (s : SynchronizedData)
    (upd : String → List (String × Value)) : Option (SynchronizedData × FgEvent) :=
  if r.threshold_reached then
    match r.most_voted_payload with
    | some p => some (s.update (upd p), FgEvent.DONE)
    | none => none
  else none

/-- Modelled from the spec: end-of-block processing of the application —
the background round is evaluated in addition to the foreground round on
the same synchronized data snapshot, and its transition preempts the
foreground round's computed decision. -/
def process_block_end (bg fg : ThresholdRound) (s : SynchronizedData)
    (upd : String → List (String × Value)) :
    Option (SynchronizedData × (Event ⊕ FgEvent)) :=
  match TerminationRound.end_block bg s with
  | some (s', e) => some (s', Sum.inl e)
  | none =>
      match ForegroundRound.end_block fg s upd with
      | some (s', e) => some (s', Sum.inr e)
      | none => none

/-! ## Tendermint healthcheck behaviour -/

/-- Persistent state of `TendermintHealthcheckBehaviour`
(common_apps/behaviours.py lines 86-147): when the check started, the
timeout copied from `params.max_healthcheck`, and the healthy flag.
Time is modelled as natural-number instants. -/
structure HState where
  check_started : Option Nat
  timeout : Nat
  is_healthy : Bool
deriving DecidableEq, Repr

/-- One invocation's external observations: the current time, whether the
health response body parses, the remote height reported by the status
probe (`none` when the status body does not parse), and the local block
height. -/
structure HEnv where
  now : Nat
  healthOk : Bool
  statusHeight : Option Nat
  localHeight : Nat
deriving DecidableEq, Repr

/-- Outcome of one `async_act` invocation of the healthcheck behaviour. -/
inductive HAction
  | fatal
  | sleepRetry
  | done_
deriving DecidableEq, Repr

/-- Embedding of `TendermintHealthcheckBehaviour.start`: on the first
call, record the start instant, copy the timeout and clear the healthy
flag. -/
def hc_start (max_healthcheck : Nat) (st : HState) (now : Nat) : HState :=
  match st.check_started with
  | none => { check_started := some now, timeout := max_healthcheck, is_healthy := false }
  | some _ => st

/-- Embedding of `TendermintHealthcheckBehaviour._is_timeout_expired`:
false when the check has not started or the node is already marked
healthy, otherwise true exactly when `now` is past start plus timeout. -/
def is_timeout_expired (st : HState) (now : Nat) : Bool :=
  match st.check_started with
  | none => false
  | some t0 => if st.is_healthy then false else decide (t0 + st.timeout < now)

/-- Health endpoint phase of `async_act`: skipped once healthy; an
unparseable body means sleep-and-retry (`none`), otherwise the healthy
flag is set. -/
def hc_health_step (st : HState) (env : HEnv) : Option HState :=
  if st.is_healthy then some st
  else if env.healthOk then some { st with is_healthy := true } else none

/-- Status endpoint phase of `async_act`: an unparseable body means
sleep-and-retry; otherwise compare the remote height with the local
height and finish only on equality. -/
def hc_status_step (st : HState) (env : HEnv) : HState × HAction :=
  match env.statusHeight with
  | none => (st, HAction.sleepRetry)
  | some remote =>
      if env.localHeight = remote then (st, HAction.done_) else (st, HAction.sleepRetry)

/-- Embedding of `TendermintHealthcheckBehaviour.async_act`
(common_apps/behaviours.py lines 111-147). -/
def hc_async_act (max_healthcheck : Nat) (st : HState) (env : HEnv) : HState × HAction :=
  let st1 := hc_start max_healthcheck st env.now
  if is_timeout_expired st1 env.now then (st1, HAction.fatal)
  else
    match hc_health_step st1 env with
    | none => (st1, HAction.sleepRetry)
    | some st2 => hc_status_step st2 env

/-! ## Transaction validation behaviour -/

/-- External observations consumed by
`ValidateTransactionBehaviour.has_transaction_been_sent`
(common_apps/behaviours.py lines 372-437): the receipt (`none` when
`get_transaction_receipt` exhausts its retries), whether the transaction
is settled, the transmit data (`none` on a non RAW_TRANSACTION
performative), and the safe verification result (`none` on a non STATE
performative). -/
structure VEnv where
  receipt : Option Unit
  settled : Bool
  transmit_data : Option String
  verified : Option Bool
deriving DecidableEq, Repr

/-- Payload built by `ValidateTransactionBehaviour.async_act`: the agent
address and the (possibly absent) local verification verdict. -/
structure ValidatePayload where
  sender : String
  vote : Option Bool
deriving DecidableEq, Repr

/-- Outcome of `ValidateTransactionBehaviour.async_act`: either the
payload is submitted over a2a (followed by waiting for the round end and
setting done), or the behaviour fails. -/
inductive VStep
  | submit (p : ValidatePayload)
  | failure
deriving DecidableEq, Repr

/-- Embedding of `ValidateTransactionBehaviour.has_transaction_been_sent`:
receipt timeout yields `none`; an unsettled transaction, a failed
transmit-data fetch or a failed verification fetch yield `some false`;
otherwise the contract's verification verdict is returned. -/
def has_transaction_been_sent (env : VEnv) : Option Bool :=
  match env.receipt with
  | none => none
  | some _ =>
      if env.settled = false then some false
      else
        match env.transmit_data with
        | none => some false
        | some _ =>
            match env.verified with
            | none => some false
            | some v => some v

/-- Embedding of `ValidateTransactionBehaviour.async_act`
(common_apps/behaviours.py lines 347-370): compute the local verdict,
wrap it in a `ValidatePayload` and submit it — unconditionally. -/
def validate_async_act (env : VEnv) (agent : String) : VStep :=
  VStep.submit { sender := agent, vote := has_transaction_been_sent env }

/-! ## Background behaviour callback -/

/-- Modelled from the spec: `AsyncBehaviour.AsyncState` (behaviour_utils,
absent from src) — the suspension state of a cooperative behaviour. -/
inductive AsyncState
  | ready
  | running
  | waitingMessage
  | waitingSleep
deriving DecidableEq, Repr

/-- Outcome of delivering one message to the callback returned by
`TerminationBehaviour.get_callback_request`. -/
inductive CallbackResult
  | droppedStopped
  | droppedWarn
  | delivered (m : String)
deriving DecidableEq, Repr

/-- Embedding of the `callback_request` closure inside
`TerminationBehaviour.get_callback_request` (background_round.py lines
154-185): a stopped behaviour drops the message with a debug log; a
behaviour not waiting for a message drops it with a warning; otherwise
the message is handed over via `try_send`. -/
def callback_request (is_stopped : Bool) (state : AsyncState) (m : String) :
    CallbackResult :=
  if is_stopped then CallbackResult.droppedStopped
  else if state ≠ AsyncState.waitingMessage then CallbackResult.droppedWarn
  else CallbackResult.delivered m

/-! ## Keeper selection behaviour -/

/-- Modelled from the spec: the helper `random_selection`
(common_apps/tools.py, absent from src) — a deterministic selection of
one element of the list driven by the agreed randomness value in [0, 1),
modelled as indexing by the floor of randomness times the list length. -/
def random_selection (elements : List String) (randomness : ℚ) : Option String :=
  elements[(⌊randomness * elements.length⌋).toNat]?

/-- The slice of the period state read by
`SelectKeeperBehaviour.async_act`: the participant set, whether a keeper
is already set, the current keeper address and the agreed keeper
randomness. -/
structure PeriodState where
  participants : List String
  is_keeper_set : Bool
  most_voted_keeper_address : String
  keeper_randomness : ℚ

/-- Embedding of the keeper computation in
`SelectKeeperBehaviour.async_act` (common_apps/behaviours.py lines
276-317): when a keeper is set and there is more than one participant,
the current keeper is removed from the potential selection; the
candidate list is sorted and the keeper picked by `random_selection`. -/
def select_keeper_address (ps : PeriodState) : Option String :=
  let relevant_set :=
    if ps.is_keeper_set ∧ 1 < ps.participants.length then
      (ps.participants.erase ps.most_voted_keeper_address).mergeSort
        (fun a b => decide (a ≤ b))
    else ps.participants.mergeSort (fun a b => decide (a ≤ b))
  random_selection relevant_set ps.keeper_randomness

theorem mem_seenFingerprints (c : List (String × String)) (f : String) :
    f ∈ seenFingerprints c ↔ f ∈ c.map Prod.snd := by
  induction c with
  | nil => simp [seenFingerprints]
  | cons kv rest ih =>
      by_cases h : f = kv.2 <;>
        simp [seenFingerprints, List.mem_filter, ih, h]

theorem threshold_reached_most_voted (r : ThresholdRound)
    (h : r.threshold_reached = true) : ∃ p, r.most_voted_payload = some p := by
  unfold ThresholdRound.threshold_reached at h
  rw [List.any_eq_true] at h
  obtain ⟨f, hf, _⟩ := h
  unfold ThresholdRound.most_voted_payload
  cases hm : (seenFingerprints r.collection).argmax (countFp r.collection) with
  | some p => exact ⟨p, rfl⟩
  | none =>
      rw [List.argmax_eq_none] at hm
      rw [hm] at hf
      cases hf

theorem upsert_map_fst (c : List (String × String)) (s p : String) :
    (upsert c s p).map Prod.fst =
      if s ∈ c.map Prod.fst then c.map Prod.fst else c.map Prod.fst ++ [s] := by
  induction c with
  | nil => simp [upsert]
  | cons kv rest ih =>
      by_cases h : kv.1 = s
      · simp [upsert, h]
      · have hne : ¬ s = kv.1 := fun hh => h hh.symm
        by_cases hmem : s ∈ rest.map Prod.fst <;>
          simp [upsert, h, ih, hmem, hne]

theorem upsert_nodup_fst (c : List (String × String)) (s p : String)
    (h : (c.map Prod.fst).Nodup) : ((upsert c s p).map Prod.fst).Nodup := by
  rw [upsert_map_fst]
  by_cases hmem : s ∈ c.map Prod.fst
  · simpa [hmem]
  · simp [hmem, List.nodup_append, h]

theorem lookup_upsert (c : List (String × String)) (s p : String) :
    (upsert c s p).lookup s = some p := by
  induction c with
  | nil => simp [upsert, List.lookup]
  | cons kv rest ih =>
      by_cases h : kv.1 = s
      · simp [upsert, h, List.lookup]
      · have : (s == kv.1) = false := by
          simp [beq_iff_eq]
          exact fun hh => h hh.symm
        simp [upsert, h, List.lookup, this, ih]

theorem sendersFor_subset (c : List (String × String)) (f a : String)
    (h : a ∈ sendersFor c f) : a ∈ c.map Prod.fst := by
  unfold sendersFor at h
  rw [List.mem_map] at h
  obtain ⟨kv, hkv, rfl⟩ := h
  rw [List.mem_filter] at hkv
  exact List.mem_map.mpr ⟨kv, hkv.1, rfl⟩

theorem sendersFor_cons (kv : String × String) (rest : List (String × String)) (f : String) :
    sendersFor (kv :: rest) f =
      if kv.2 = f then kv.1 :: sendersFor rest f else sendersFor rest f := by
  by_cases h : kv.2 = f <;> simp [sendersFor, List.filter_cons, h]

theorem mem_sendersFor_upsert (c : List (String × String)) (s p f : String)
    (h : (c.map Prod.fst).Nodup) :
    (s ∈ sendersFor (upsert c s p) f ↔ f = p) := by
  induction c with
  | nil =>
      rw [show upsert [] s p = [(s, p)] from rfl, sendersFor_cons]
      by_cases hf : p = f <;> simp [sendersFor, hf, eq_comm]
  | cons kv rest ih =>
      rw [List.map_cons, List.nodup_cons] at h
      by_cases hk : kv.1 = s
      · have hupd : upsert (kv :: rest) s p = (s, p) :: rest := by
          simp [upsert, hk]
        have hs : s ∉ sendersFor rest f := fun hmem => by
          have hsub := sendersFor_subset rest f s hmem
          rw [hk] at h
          exact h.1 hsub
        rw [hupd, sendersFor_cons]
        by_cases hf : p = f <;> simp [hf, hs, eq_comm]
      · have hupd : upsert (kv :: rest) s p = kv :: upsert rest s p := by
          simp [upsert, hk]
        have hsne : ¬ s = kv.1 := fun hh => hk hh.symm
        rw [hupd, sendersFor_cons]
        by_cases hf : kv.2 = f <;> simp [hf, hsne, ih h.2]

theorem upsert_not_mem (c : List (String × String)) (s p : String)
    (h : s ∉ c.map Prod.fst) : upsert c s p = c ++ [(s, p)] := by
  induction c with
  | nil => simp [upsert]
  | cons kv rest ih =>
      rw [List.map_cons] at h
      have hk : ¬ kv.1 = s := fun hh => h (by simp [hh])
      have hrest : s ∉ rest.map Prod.fst := fun hh => h (by simp [hh])
      simp [upsert, hk, ih hrest]

theorem countFp_append_le (c : List (String × String)) (kv : String × String)
    (f : String) : countFp c f ≤ countFp (c ++ [kv]) f := by
  simp [countFp, List.count_append]

/-- Claim C4: update never mutates — it yields a fresh snapshot whose db is
the receiver's mapping overlaid with the deltas and whose version is the
receiver's version plus one; lookups on the receiver are unaffected. -/
theorem c4_snapshot_update (s : SynchronizedData) (ds : List (String × Value)) :
    (s.update ds).version = s.version + 1 ∧
    (∀ k d, (s.update ds).get k d =
      match ds.lookup k with
      | some v => v
      | none => s.get k d) ∧
    s.update ds ≠ s := by
  refine ⟨rfl, fun k d => ?_, fun hcontra => ?_⟩
  · unfold SynchronizedData.get SynchronizedData.update
    simp only [List.lookup_append]
    cases ds.lookup k <;> simp
  · have hv := congrArg SynchronizedData.version hcontra
    simp [SynchronizedData.update] at hv

/-- Claim C1: TerminationRound.end_block returns no decision exactly when
the threshold is not reached; when it is reached it returns the
synchronized data updated with termination_majority_reached = true and
most_voted_tx_hash = most_voted_payload, together with TERMINATE. -/
theorem c1_termination_end_block (r : ThresholdRound) (s : SynchronizedData) :
    (TerminationRound.end_block r s = none ↔ r.threshold_reached = false) ∧
    (r.threshold_reached = true →
      ∃ p ns, r.most_voted_payload = some p ∧
        TerminationRound.end_block r s = some (ns, Event.TERMINATE) ∧
        ns = s.update [("termination_majority_reached", Value.bool true),
                       ("most_voted_tx_hash", Value.str p)] ∧
        ns.termination_majority_reached = Value.bool true ∧
        ns.most_voted_tx_hash = Value.str p) := by
  constructor
  · constructor
    · intro hnone
      by_contra hth
      rw [Bool.not_eq_false] at hth
      obtain ⟨p, hp⟩ := threshold_reached_most_voted r hth
      unfold TerminationRound.end_block at hnone
      rw [if_pos hth, hp] at hnone
      cases hnone
    · intro hth
      unfold TerminationRound.end_block
      rw [if_neg (by simp [hth])]
  · intro hth
    obtain ⟨p, hp⟩ := threshold_reached_most_voted r hth
    refine ⟨p, _, hp, ?_, rfl, ?_, ?_⟩
    · unfold TerminationRound.end_block
      rw [if_pos hth, hp]
    · unfold SynchronizedData.termination_majority_reached SynchronizedData.get
        SynchronizedData.update
      simp [List.lookup]
    · unfold SynchronizedData.most_voted_tx_hash SynchronizedData.get
        SynchronizedData.update
      simp [List.lookup]

theorem c1_witness :
    (⟨["A", "B", "C", "D"], 3, [("A", "x"), ("B", "x"), ("C", "x"), ("D", "y")],
      false⟩ : ThresholdRound).threshold_reached = true ∧
    ∃ p ns,
      (⟨["A", "B", "C", "D"], 3, [("A", "x"), ("B", "x"), ("C", "x"), ("D", "y")],
        false⟩ : ThresholdRound).most_voted_payload = some p ∧
      TerminationRound.end_block
        ⟨["A", "B", "C", "D"], 3, [("A", "x"), ("B", "x"), ("C", "x"), ("D", "y")],
          false⟩ ⟨0, []⟩ = some (ns, Event.TERMINATE) ∧
      ns = SynchronizedData.update ⟨0, []⟩
        [("termination_majority_reached", Value.bool true),
         ("most_voted_tx_hash", Value.str p)] ∧
      ns.termination_majority_reached = Value.bool true ∧
      ns.most_voted_tx_hash = Value.str p :=
  ⟨by decide,
   (c1_termination_end_block
     ⟨["A", "B", "C", "D"], 3, [("A", "x"), ("B", "x"), ("C", "x"), ("D", "y")],
       false⟩ ⟨0, []⟩).2 (by decide)⟩

/-- Claim C6: with 4 participants and threshold 3, payloads
x, x, x, y conclude the round on fingerprint x with the TERMINATE
success event, while payloads x, y, z, x leave every fingerprint below
3, so end_block returns no decision and the round stays collecting. -/
theorem c6_threshold_scenarios :
    (let ra : ThresholdRound :=
      ⟨["A", "B", "C", "D"], 3, [("A", "x"), ("B", "x"), ("C", "x"), ("D", "y")], false⟩
     ra.threshold_reached = true ∧
     ra.most_voted_payload = some "x" ∧
     ∃ ns, TerminationRound.end_block ra ⟨0, []⟩ = some (ns, Event.TERMINATE) ∧
       ns.most_voted_tx_hash = Value.str "x") ∧
    (let rb : ThresholdRound :=
      ⟨["A", "B", "C", "D"], 3, [("A", "x"), ("B", "y"), ("C", "z"), ("D", "x")], false⟩
     rb.threshold_reached = false ∧
     TerminationRound.end_block rb ⟨0, []⟩ = none ∧
     rb.concluded = false) := by
  refine ⟨⟨by decide, by decide, ⟨⟨1, [("termination_majority_reached", Value.bool true),
    ("most_voted_tx_hash", Value.str "x")]⟩, by decide, by decide⟩⟩,
    by decide, by decide, by decide⟩

/-- Claim C2: a sender's resubmission before the round ends replaces the
prior payload — only the second is counted toward any fingerprint's
sender set, the per-sender uniqueness of the collection is preserved —
and any submission into a concluded round is rejected as stale. -/
theorem c2_single_payload_per_sender (r : ThresholdRound) (s p1 p2 : String)
    (hnd : (r.collection.map Prod.fst).Nodup)
    (hpart : s ∈ r.participants) (hconc : r.concluded = false) (hne : p1 ≠ p2) :
    (∃ r1 r2, submitPayload r s p1 = Except.ok r1 ∧
      submitPayload r1 s p2 = Except.ok r2 ∧
      (r2.collection.map Prod.fst).Nodup ∧
      r2.collection.lookup s = some p2 ∧
      (∀ f, s ∈ sendersFor r2.collection f ↔ f = p2) ∧
      s ∉ sendersFor r2.collection p1) ∧
    (∀ (r' : ThresholdRound) (q : String), r'.concluded = true →
      submitPayload r' s q = Except.error SubmitError.stale) := by
  constructor
  · have h1 : submitPayload r s p1 =
        Except.ok { r with collection := upsert r.collection s p1 } := by
      unfold submitPayload
      rw [if_neg (by simp [hconc]), if_pos hpart]
    have h2 : submitPayload { r with collection := upsert r.collection s p1 } s p2 =
        Except.ok { r with collection := upsert (upsert r.collection s p1) s p2 } := by
      unfold submitPayload
      rw [if_neg (by simp [hconc]), if_pos hpart]
    have hnd1 : ((upsert r.collection s p1).map Prod.fst).Nodup :=
      upsert_nodup_fst _ _ _ hnd
    have hnd2 : ((upsert (upsert r.collection s p1) s p2).map Prod.fst).Nodup :=
      upsert_nodup_fst _ _ _ hnd1
    refine ⟨_, _, h1, h2, hnd2, lookup_upsert _ _ _, ?_, ?_⟩
    · intro f
      exact mem_sendersFor_upsert _ _ _ _ hnd1
    · intro hmem
      exact hne ((mem_sendersFor_upsert _ _ _ _ hnd1).mp hmem)
  · intro r' q hconc'
    unfold submitPayload
    rw [if_pos hconc']

theorem c2_witness :
    ((([("A", "x")] : List (String × String)).map Prod.fst).Nodup ∧
     ("B" : String) ∈ ["A", "B"] ∧
     (⟨["A", "B"], 2, [("A", "x")], false⟩ : ThresholdRound).concluded = false ∧
     ("u" : String) ≠ "v") ∧
    ((∃ r1 r2,
      submitPayload ⟨["A", "B"], 2, [("A", "x")], false⟩ "B" "u" = Except.ok r1 ∧
      submitPayload r1 "B" "v" = Except.ok r2 ∧
      (r2.collection.map Prod.fst).Nodup ∧
      r2.collection.lookup "B" = some "v" ∧
      (∀ f, "B" ∈ sendersFor r2.collection f ↔ f = "v") ∧
      "B" ∉ sendersFor r2.collection "u") ∧
    (∀ (r' : ThresholdRound) (q : String), r'.concluded = true →
      submitPayload r' "B" q = Except.error SubmitError.stale)) :=
  ⟨⟨by decide, by decide, by decide, by decide⟩,
   c2_single_payload_per_sender ⟨["A", "B"], 2, [("A", "x")], false⟩ "B" "u" "v"
     (by decide) (by decide) (by decide) (by decide)⟩

/-- Claim C5 fails as stated: in a round with threshold 3 that has
reached it on fingerprint x, the majority voter C resubmitting the
distinct fingerprint y (a replacement, per the single-payload-per-sender
rule) drops x's sender set to 2 and threshold_reached becomes false. -/
theorem c5_counterexample :
    (⟨["A", "B", "C", "D"], 3, [("A", "x"), ("B", "x"), ("C", "x")],
      false⟩ : ThresholdRound).threshold_reached = true ∧
    (⟨["A", "B", "C", "D"], 3, [("A", "x"), ("B", "x"), ("C", "x")],
      false⟩ : ThresholdRound).most_voted_payload = some "x" ∧
    ("y" : String) ≠ "x" ∧
    submitPayload ⟨["A", "B", "C", "D"], 3, [("A", "x"), ("B", "x"), ("C", "x")],
      false⟩ "C" "y" =
      Except.ok ⟨["A", "B", "C", "D"], 3, [("A", "x"), ("B", "x"), ("C", "y")], false⟩ ∧
    (⟨["A", "B", "C", "D"], 3, [("A", "x"), ("B", "x"), ("C", "y")],
      false⟩ : ThresholdRound).threshold_reached = false := by
  refine ⟨by decide, by decide, by decide, by rfl, by decide⟩

/-- Claim C5 (amended): once threshold_reached is true, a payload from a
sender who has not yet submitted in this round — whatever its
fingerprint — leaves threshold_reached true. -/
theorem c5_threshold_monotone_fresh (r : ThresholdRound) (s p : String)
    (hfresh : s ∉ r.collection.map Prod.fst)
    (hpart : s ∈ r.participants) (hconc : r.concluded = false)
    (hth : r.threshold_reached = true) :
    ∃ r', submitPayload r s p = Except.ok r' ∧ r'.threshold_reached = true := by
  have hsub : submitPayload r s p =
      Except.ok { r with collection := upsert r.collection s p } := by
    unfold submitPayload
    rw [if_neg (by simp [hconc]), if_pos hpart]
  refine ⟨_, hsub, ?_⟩
  unfold ThresholdRound.threshold_reached at hth ⊢
  rw [List.any_eq_true] at hth ⊢
  obtain ⟨f, hf, hcount⟩ := hth
  refine ⟨f, ?_, ?_⟩
  · simp only []
    rw [upsert_not_mem _ _ _ hfresh, mem_seenFingerprints, List.map_append]
    rw [mem_seenFingerprints] at hf
    exact List.mem_append_left _ hf
  · simp only []
    rw [upsert_not_mem _ _ _ hfresh]
    rw [decide_eq_true_iff] at hcount ⊢
    exact le_trans hcount (countFp_append_le _ _ _)

theorem c5_witness :
    (("D" : String) ∉ ([("A", "x"), ("B", "x"), ("C", "x")].map
      (Prod.fst (β := String))) ∧
     ("D" : String) ∈ ["A", "B", "C", "D"] ∧
     (⟨["A", "B", "C", "D"], 3, [("A", "x"), ("B", "x"), ("C", "x")],
       false⟩ : ThresholdRound).concluded = false ∧
     (⟨["A", "B", "C", "D"], 3, [("A", "x"), ("B", "x"), ("C", "x")],
       false⟩ : ThresholdRound).threshold_reached = true) ∧
    ∃ r', submitPayload ⟨["A", "B", "C", "D"], 3,
        [("A", "x"), ("B", "x"), ("C", "x")], false⟩ "D" "y" = Except.ok r' ∧
      r'.threshold_reached = true :=
  ⟨⟨by decide, by decide, by decide, by decide⟩,
   c5_threshold_monotone_fresh
     ⟨["A", "B", "C", "D"], 3, [("A", "x"), ("B", "x"), ("C", "x")], false⟩ "D" "y"
     (by decide) (by decide) (by decide) (by decide)⟩

/-- Claim C3: when the background round and the foreground round both
reach their threshold on the same block, the committed snapshot and the
emitted event are the background round's output, and the foreground
round's computed decision — obtained from the very same snapshot — is
discarded. -/
theorem c3_background_preemption (bg fg : ThresholdRound) (s : SynchronizedData)
    (upd : String → List (String × Value))
    (hbg : bg.threshold_reached = true) (hfg : fg.threshold_reached = true) :
    ∃ sb, TerminationRound.end_block bg s = some (sb, Event.TERMINATE) ∧
      process_block_end bg fg s upd = some (sb, Sum.inl Event.TERMINATE) ∧
      ∃ sf, ForegroundRound.end_block fg s upd = some (sf, FgEvent.DONE) := by
  obtain ⟨p, hp⟩ := threshold_reached_most_voted bg hbg
  obtain ⟨q, hq⟩ := threshold_reached_most_voted fg hfg
  have hb : TerminationRound.end_block bg s =
      some (s.update [("termination_majority_reached", Value.bool true),
                      ("most_voted_tx_hash", Value.str p)], Event.TERMINATE) := by
    unfold TerminationRound.end_block
    rw [if_pos hbg, hp]
  have hf : ForegroundRound.end_block fg s upd = some (s.update (upd q), FgEvent.DONE) := by
    unfold ForegroundRound.end_block
    rw [if_pos hfg, hq]
  refine ⟨_, hb, ?_, _, hf⟩
  unfold process_block_end
  rw [hb]

theorem c3_witness :
    ((⟨["A", "B", "C"], 2, [("A", "t"), ("B", "t")],
       false⟩ : ThresholdRound).threshold_reached = true ∧
     (⟨["A", "B", "C"], 2, [("A", "k"), ("C", "k")],
       false⟩ : ThresholdRound).threshold_reached = true) ∧
    ∃ sb, TerminationRound.end_block
        ⟨["A", "B", "C"], 2, [("A", "t"), ("B", "t")], false⟩ ⟨0, []⟩ =
        some (sb, Event.TERMINATE) ∧
      process_block_end ⟨["A", "B", "C"], 2, [("A", "t"), ("B", "t")], false⟩
        ⟨["A", "B", "C"], 2, [("A", "k"), ("C", "k")], false⟩ ⟨0, []⟩
        (fun p => [("most_voted_keeper_address", Value.str p)]) =
        some (sb, Sum.inl Event.TERMINATE) ∧
      ∃ sf, ForegroundRound.end_block
          ⟨["A", "B", "C"], 2, [("A", "k"), ("C", "k")], false⟩ ⟨0, []⟩
          (fun p => [("most_voted_keeper_address", Value.str p)]) =
          some (sf, FgEvent.DONE) :=
  ⟨⟨by decide, by decide⟩,
   c3_background_preemption
     ⟨["A", "B", "C"], 2, [("A", "t"), ("B", "t")], false⟩
     ⟨["A", "B", "C"], 2, [("A", "k"), ("C", "k")], false⟩ ⟨0, []⟩
     (fun p => [("most_voted_keeper_address", Value.str p)])
     (by decide) (by decide)⟩

/-- A node already marked healthy never trips the timeout check. -/
theorem is_timeout_expired_healthy (st : HState) (now : Nat)
    (hh : st.is_healthy = true) : is_timeout_expired st now = false := by
  unfold is_timeout_expired
  rw [hh]
  cases st.check_started <;> simp

theorem hc_done_heights (p : Nat) (st : HState) (env : HEnv)
    (h : (hc_async_act p st env).2 = HAction.done_) :
    env.statusHeight = some env.localHeight := by
  simp only [hc_async_act] at h
  split at h
  · cases h
  · split at h
    · cases h
    · rename_i st2 hstep
      unfold hc_status_step at h
      split at h
      · cases h
      · rename_i remote heq
        split at h
        · rename_i hloc
          rw [heq, hloc]
        · cases h

theorem hc_expired_fatal (p : Nat) (st : HState) (env : HEnv)
    (h : is_timeout_expired (hc_start p st env.now) env.now = true) :
    (hc_async_act p st env).2 = HAction.fatal := by
  simp only [hc_async_act]
  rw [if_pos h]

theorem hc_healthy_no_fatal (p : Nat) (st : HState) (env : HEnv)
    (hh : (hc_start p st env.now).is_healthy = true) :
    (hc_async_act p st env).2 ≠ HAction.fatal := by
  simp only [hc_async_act]
  rw [if_neg (by rw [is_timeout_expired_healthy _ _ hh]; simp)]
  split
  · simp
  · unfold hc_status_step
    split
    · simp
    · split <;> simp

theorem hc_bad_health_sleep (p : Nat) (st : HState) (env : HEnv)
    (hexp : is_timeout_expired (hc_start p st env.now) env.now = false)
    (hh : (hc_start p st env.now).is_healthy = false) (hok : env.healthOk = false) :
    (hc_async_act p st env).2 = HAction.sleepRetry := by
  simp only [hc_async_act]
  rw [if_neg (by simp [hexp])]
  have hstep : hc_health_step (hc_start p st env.now) env = none := by
    simp [hc_health_step, hh, hok]
  rw [hstep]

theorem hc_bad_status_sleep (p : Nat) (st : HState) (env : HEnv)
    (hexp : is_timeout_expired (hc_start p st env.now) env.now = false)
    (hsh : env.statusHeight = none) :
    (hc_async_act p st env).2 = HAction.sleepRetry := by
  simp only [hc_async_act]
  rw [if_neg (by simp [hexp])]
  split
  · rfl
  · unfold hc_status_step
    rw [hsh]

/-- Claim C7 fails as stated: with the check started at 0, timeout 10 and
the node already marked healthy, at time 100 — long past the timeout —
a status report whose remote height 5 still differs from the local
height 3 yields sleep-and-retry, not a fatal error: the behaviour keeps
silently retrying although the node never became height-synchronized
within the timeout. -/
theorem c7_counterexample :
    (0 : Nat) + 10 < 100 ∧ (some 5 : Option Nat) ≠ some 3 ∧
    hc_async_act 10 ⟨some 0, 10, true⟩ ⟨100, true, some 5, 3⟩ =
      (⟨some 0, 10, true⟩, HAction.sleepRetry) := by
  refine ⟨by decide, by decide, by decide⟩

/-- Claim C7 (amended): async_act finishes only when the local height
equals the reported remote height; if the node has not been marked
healthy when the timeout expires the behaviour raises a fatal error;
once marked healthy it never aborts; and before expiry an unparseable
health or status body yields sleep-and-retry rather than an error. -/
theorem c7_healthcheck (p : Nat) (st : HState) (env : HEnv) :
    ((hc_async_act p st env).2 = HAction.done_ →
      env.statusHeight = some env.localHeight) ∧
    (is_timeout_expired (hc_start p st env.now) env.now = true →
      (hc_async_act p st env).2 = HAction.fatal) ∧
    ((hc_start p st env.now).is_healthy = true →
      (hc_async_act p st env).2 ≠ HAction.fatal) ∧
    (is_timeout_expired (hc_start p st env.now) env.now = false →
      (hc_start p st env.now).is_healthy = false → env.healthOk = false →
      (hc_async_act p st env).2 = HAction.sleepRetry) ∧
    (is_timeout_expired (hc_start p st env.now) env.now = false →
      env.statusHeight = none →
      (hc_async_act p st env).2 = HAction.sleepRetry) :=
  ⟨hc_done_heights p st env, hc_expired_fatal p st env, hc_healthy_no_fatal p st env,
   fun hexp hh hok => hc_bad_health_sleep p st env hexp hh hok,
   fun hexp hsh => hc_bad_status_sleep p st env hexp hsh⟩

theorem c7_witness :
    ((hc_async_act 10 ⟨some 0, 10, true⟩ ⟨5, true, some 3, 3⟩).2 = HAction.done_) ∧
    (some 3 : Option Nat) = some 3 :=
  ⟨by decide, (c7_healthcheck 10 ⟨some 0, 10, true⟩ ⟨5, true, some 3, 3⟩).1 (by decide)⟩

/-- Claim C8: the validation behaviour always wraps the local verdict —
including the negative outcomes: exhausted receipt retries (none) and
failed verification (false) — in a ValidatePayload and submits it,
never raising or skipping submission. -/
theorem c8_validate_submits_negative (env : VEnv) (agent : String) :
    (validate_async_act env agent =
      VStep.submit ⟨agent, has_transaction_been_sent env⟩) ∧
    (env.receipt = none → has_transaction_been_sent env = none ∧
      validate_async_act env agent = VStep.submit ⟨agent, none⟩) ∧
    (∀ u, env.receipt = some u → env.settled = false →
      has_transaction_been_sent env = some false ∧
      validate_async_act env agent = VStep.submit ⟨agent, some false⟩) ∧
    (has_transaction_been_sent env = some false →
      validate_async_act env agent = VStep.submit ⟨agent, some false⟩) ∧
    validate_async_act env agent ≠ VStep.failure := by
  refine ⟨rfl, ?_, ?_, ?_, by simp [validate_async_act]⟩
  · intro hr
    have hn : has_transaction_been_sent env = none := by
      unfold has_transaction_been_sent
      rw [hr]
    exact ⟨hn, by simp [validate_async_act, hn]⟩
  · intro u hr hs
    have hf : has_transaction_been_sent env = some false := by
      unfold has_transaction_been_sent
      rw [hr, hs]
      simp
    exact ⟨hf, by simp [validate_async_act, hf]⟩
  · intro h
    simp [validate_async_act, h]

theorem c8_witness :
    ((⟨none, true, none, none⟩ : VEnv).receipt = none) ∧
    has_transaction_been_sent ⟨none, true, none, none⟩ = none ∧
    validate_async_act ⟨none, true, none, none⟩ "agent" =
      VStep.submit ⟨"agent", none⟩ :=
  ⟨rfl, (c8_validate_submits_negative ⟨none, true, none, none⟩ "agent").2.1 rfl⟩

/-- Claim C9: the background behaviour's callback drops the message when
the behaviour has stopped, drops it with a warning when the behaviour is
not waiting for a message, and hands it over exactly when the behaviour
is waiting for a message. -/
theorem c9_callback_drops (stopped : Bool) (st : AsyncState) (m : String) :
    (stopped = true → callback_request stopped st m = CallbackResult.droppedStopped) ∧
    (stopped = false → st ≠ AsyncState.waitingMessage →
      callback_request stopped st m = CallbackResult.droppedWarn) ∧
    (callback_request stopped st m = CallbackResult.delivered m ↔
      stopped = false ∧ st = AsyncState.waitingMessage) := by
  refine ⟨?_, ?_, ?_, ?_⟩
  · intro h
    simp [callback_request, h]
  · intro h hst
    simp [callback_request, h, hst]
  · intro h
    cases stopped
    · cases st <;> simp_all [callback_request]
    · simp [callback_request] at h
  · rintro ⟨h1, h2⟩
    simp [callback_request, h1, h2]

theorem c9_witness :
    ((true : Bool) = true) ∧
    callback_request true AsyncState.running "msg" = CallbackResult.droppedStopped :=
  ⟨rfl, (c9_callback_drops true AsyncState.running "msg").1 rfl⟩

/-- With randomness in [0, 1) and a nonempty list, random_selection picks
an element of the list. -/
theorem random_selection_mem (elements : List String) (r : ℚ)
    (h0 : 0 ≤ r) (h1 : r < 1) (hne : elements ≠ []) :
    ∃ a, random_selection elements r = some a ∧ a ∈ elements := by
  have hlen : 0 < elements.length := List.length_pos.mpr hne
  have hlt : (⌊r * elements.length⌋).toNat < elements.length := by
    rw [Int.toNat_lt' (Nat.pos_iff_ne_zero.mp hlen)]
    rw [Int.floor_lt]
    push_cast
    calc r * elements.length < 1 * elements.length := by
          apply mul_lt_mul_of_pos_right h1
          exact_mod_cast hlen
      _ = elements.length := one_mul _
  unfold random_selection
  exact ⟨elements[(⌊r * elements.length⌋).toNat],
    List.getElem?_eq_getElem hlt, List.getElem_mem hlt⟩

/-- Claim C10: with a nonempty duplicate-free participant set (and the
current keeper a participant when one is set among more than one
participant) and randomness in [0, 1), the selected keeper is a
participant, and differs from the previously set keeper when one was set
with more than one participant. -/
theorem c10_select_keeper (ps : PeriodState)
    (hnodup : ps.participants.Nodup) (hne : ps.participants ≠ [])
    (hkeeper : ps.is_keeper_set = true ∧ 1 < ps.participants.length →
      ps.most_voted_keeper_address ∈ ps.participants)
    (h0 : 0 ≤ ps.keeper_randomness) (h1 : ps.keeper_randomness < 1) :
    ∃ a, select_keeper_address ps = some a ∧ a ∈ ps.participants ∧
      (ps.is_keeper_set = true ∧ 1 < ps.participants.length →
        a ≠ ps.most_voted_keeper_address) := by
  unfold select_keeper_address
  by_cases hc : ps.is_keeper_set = true ∧ 1 < ps.participants.length
  · rw [if_pos hc]
    have hmemk := hkeeper hc
    have hlnil : (ps.participants.erase ps.most_voted_keeper_address).mergeSort
        (fun a b => decide (a ≤ b)) ≠ [] := by
      intro hnil
      have hlen := congrArg List.length hnil
      rw [List.length_mergeSort, List.length_erase_of_mem hmemk] at hlen
      simp at hlen
      omega
    obtain ⟨a, ha, hmem⟩ := random_selection_mem _ ps.keeper_randomness h0 h1 hlnil
    have hmem2 : a ∈ ps.participants.erase ps.most_voted_keeper_address :=
      List.mem_mergeSort.mp hmem
    exact ⟨a, ha, List.mem_of_mem_erase hmem2,
      fun _ => ((List.Nodup.mem_erase_iff hnodup).mp hmem2).1⟩
  · rw [if_neg hc]
    have hlnil : ps.participants.mergeSort (fun a b => decide (a ≤ b)) ≠ [] := by
      intro hnil
      have hlen := congrArg List.length hnil
      rw [List.length_mergeSort] at hlen
      exact hne (List.length_eq_zero.mp hlen)
    obtain ⟨a, ha, hmem⟩ := random_selection_mem _ ps.keeper_randomness h0 h1 hlnil
    exact ⟨a, ha, List.mem_mergeSort.mp hmem, fun hcc => absurd hcc hc⟩

theorem c10_witness :
    (["b", "a", "c"] : List String).Nodup ∧
    ∃ a, select_keeper_address ⟨["b", "a", "c"], true, "b", 1/2⟩ = some a ∧
      a ∈ (["b", "a", "c"] : List String) ∧
      ((true : Bool) = true ∧ 1 < (["b", "a", "c"] : List String).length →
        a ≠ "b") :=
  ⟨by decide, c10_select_keeper ⟨["b", "a", "c"], true, "b", 1/2⟩ (by decide)
    (by decide) (fun _ => by decide) (by norm_num) (by norm_num)⟩
